import Mathlib

/-!
Verification of the bokehjs graphics-box layout engine and math-rendering
pipeline (`src/bokehjs/src/lib/models/text/math_text.ts` together with the
`core/graphics.ts` module it builds on), as a shallow embedding in Lean 4.

Conventions of the embedding:
* JavaScript numbers are modelled as exact rationals (`ℚ`); the claims under
  study are exact algebraic identities, not statements about float rounding.
* Strings are modelled as `List Char`; JavaScript iterates strings by code
  point, which matches `List Char`.
* External collaborators (font metrics service, text measurement service,
  the MathJax provider, the image decoder) are passed in as explicit
  parameters or oracles, mirroring how the source consumes them.
* Stateful pipeline code is modelled by explicit state passing: the
  synchronous prefix of an `async` function (up to its first `await`) is one
  step, and the resolution of the awaited promise is a separate step.
-/

/-- Screen-space size, as produced by `_size()`/`size()` in `core/graphics.ts`. -/
structure Size where
  width : ℚ
  height : ℚ
deriving Repr, DecidableEq

/-- Font metrics record returned by the external `font_metrics(font)` service
(`core/util/text`): only the fields the embedded code reads are kept. -/
structure FontMetrics where
  ascent : ℚ
  descent : ℚ
  height : ℚ
  x_height : ℚ
  cap_height : ℚ
deriving Repr, DecidableEq

/-- The `TextHeightMetric` union type of `core/graphics.ts`:
`"x" | "cap" | "ascent" | "x_descent" | "cap_descent" | "ascent_descent"`. -/
inductive TextHeightMetric where
  | x
  | cap
  | ascent
  | x_descent
  | cap_descent
  | ascent_descent
deriving Repr, DecidableEq

/-- Horizontal anchor values (`x_anchor` of `Position`). A numeric anchor is
the fraction-of-width variant. -/
inductive XAnchor where
  | left
  | center
  | right
  | frac (q : ℚ)
deriving Repr, DecidableEq

/-- Vertical anchor values (`y_anchor` of `Position`). -/
inductive YAnchor where
  | top
  | center
  | baseline
  | bottom
  | frac (q : ℚ)
deriving Repr, DecidableEq

/-- The `Position` type of `core/graphics.ts`: a screen anchor point with
optional anchor specifiers (`none` models an absent field). -/
structure Position where
  sx : ℚ
  sy : ℚ
  x_anchor : Option XAnchor := none
  y_anchor : Option YAnchor := none
deriving Repr, DecidableEq

namespace TextBox

/-- One character class test from `is_math_like` inside
`TextBox.infer_text_height` (`core/graphics.ts`): digits `0`..`9` or one of
`, . + - − e` ( `−` is the true minus sign). -/
def math_like_char (c : Char) : Bool :=
  (decide ('0' ≤ c) && decide (c ≤ '9')) ||
    (c = ',' || c = '.' || c = '+' || c = '-' || c = '−' || c = 'e')

/-- Embeds `is_math_like` from `TextBox.infer_text_height`: the source iterates
`new Set(text)` (the distinct code points of the text, i.e. `dedup`) and
requires every one to be a digit or one of the allowed punctuation chars. -/
def is_math_like (text : List Char) : Bool :=
  text.dedup.all math_like_char

/-- Embeds `TextBox.infer_text_height` (`core/graphics.ts` lines 533-585): text with
a newline is classified `ascent_descent`; otherwise a math-like single line
is classified `cap`, and any other single line `ascent_descent`. -/
def infer_text_height (text : List Char) : TextHeightMetric :=
  if text.contains '\n' then
    .ascent_descent
  else
    if is_math_like text then .cap else .ascent_descent

/-- The ascent/descent/height triple computed by `TextBox._text_line` for the
active height metric. -/
structure TextLine where
  height : ℚ
  ascent : ℚ
  descent : ℚ
deriving Repr, DecidableEq

/-- Embeds `TextBox._text_line` (`core/graphics.ts`): selects ascent and descent
from the font metrics according to the active `TextHeightMetric`. -/
def text_line (metric : TextHeightMetric) (fm : FontMetrics) : TextLine :=
  let ascent :=
    match metric with
    | .x | .x_descent => fm.x_height
    | .cap | .cap_descent => fm.cap_height
    | .ascent | .ascent_descent => fm.ascent
  let descent :=
    match metric with
    | .x | .cap | .ascent => 0
    | .x_descent | .cap_descent | .ascent_descent => fm.descent
  { height := ascent + descent, ascent := ascent, descent := descent }

end TextBox

/-- Split a character list on a separator character, exactly like
`text.split("\n")` in JavaScript: always returns at least one (possibly
empty) segment. -/
def splitOnChar (sep : Char) : List Char → List (List Char)
  | [] => [[]]
  | c :: rest =>
    match splitOnChar sep rest with
    | [] => [[c]]
    | l :: ls => if c = sep then [] :: l :: ls else (c :: l) :: ls

/-- Embeds `max` from `core/util/array` folded over line widths, as used by
`TextBox._size` (the source starts from negative infinity; widths of split
lines always exist, and line widths are nonnegative, so folding from 0 agrees
for every actual input). -/
def max_fold (l : List ℚ) : ℚ :=
  l.foldl max 0

namespace TextBox

/-- Embeds `TextBox._size` (`core/graphics.ts` lines 625-662). Parameters stand for
the box's mutable fields and the external measurement service:
`tw line = text_width(line, font)`, `fm = font_metrics(font)`, `line_height`
is the box's line-height multiplier, `w_scale`/`h_scale` are the optional
percentage overrides (1 when absent), `metric_override` is the box's
`text_height_metric` field (`none` when unset). -/
def size (tw : List Char → ℚ) (fm : FontMetrics) (line_height : ℚ)
    (w_scale h_scale : ℚ) (metric_override : Option TextHeightMetric)
    (text : List Char) : Size :=
  let line_spacing := (line_height - 1) * fm.height
  let empty := text = []
  let lines := splitOnChar '\n' text
  let nlines : ℚ := lines.length
  let widths := lines.map tw
  let metric := metric_override.getD (infer_text_height text)
  let tl := text_line metric fm
  let text_height := tl.height * nlines
  let width := max_fold widths * w_scale
  let height := if empty then 0 else (text_height + line_spacing * (nlines - 1)) * h_scale
  { width := width, height := height }

end TextBox

namespace GraphicsContainer

/-- Embeds `GraphicsContainer._size` (`core/graphics.ts` lines 1159-1170): a fold
over the children's `_size()` results, accumulating the sum of widths and the
running maximum of heights starting from `{width: 0, height: 0}`. Children
are represented by their reported sizes, since the loop reads nothing else. -/
def container_size (items : List Size) : Size :=
  items.foldl (fun acc s => { width := acc.width + s.width, height := max acc.height s.height })
    { width := 0, height := 0 }

end GraphicsContainer

namespace BaseExpo

/-- The shape of the `base` child as far as `BaseExpo._shift_scale` can
observe it: either a `TextBox` (or subclass) whose text is a single line —
in which case the base's font metrics are consulted — or anything else. -/
inductive BaseKind where
  | textBoxSingleLine (fm : FontMetrics)
  | other
deriving Repr, DecidableEq

/-- Embeds `BaseExpo._shift_scale` (`core/graphics.ts` lines 951-958):
`x_height/cap_height` of the base's font when the base is a single-line
`TextBox`, otherwise the constant `2/3`. -/
def shift_scale (bk : BaseKind) : ℚ :=
  match bk with
  | .textBoxSingleLine fm => fm.x_height / fm.cap_height
  | .other => 2 / 3

/-- Embeds `BaseExpo._size` (`core/graphics.ts` lines 973-981), parameterized by the
children's `size()` results `bs` (base) and `es` (exponent). -/
def size (bk : BaseKind) (bs es : Size) : Size :=
  { width := bs.width + es.width,
    height := max bs.height (shift_scale bk * bs.height + es.height) }

/-- The pair of child positions assigned by the `BaseExpo.position` setter
(`core/graphics.ts` lines 921-939): the base is anchored bottom-left at
`sy = max(base.height, shift + expo.height)` and the exponent bottom-left at
`sx = base.width, sy = shift`, with `shift = shift_scale * base.height`. -/
def set_position (bk : BaseKind) (bs es : Size) : Position × Position :=
  let shift := shift_scale bk * bs.height
  let height := max bs.height (shift + es.height)
  ({ sx := 0, sy := height, x_anchor := some .left, y_anchor := some .bottom },
   { sx := bs.width, sy := shift, x_anchor := some .left, y_anchor := some .bottom })

end BaseExpo

/-- The `metric_map` ranking used by the `visuals` setters of
`GraphicsBoxes`/`GraphicsContainer` (`core/graphics.ts`):
`{x: 0, cap: 1, ascent: 2, x_descent: 3, cap_descent: 4, ascent_descent: 5}`. -/
def metric_map : TextHeightMetric → ℕ
  | .x => 0
  | .cap => 1
  | .ascent => 2
  | .x_descent => 3
  | .cap_descent => 4
  | .ascent_descent => 5

/-- Modelled from the spec: `max_by` from `core/util/array` (that module is
not in the sources under study) — "ranking … and picking the maximum rank":
it returns the element of the list whose key is maximal (`none` on an empty
list, where the source has no defined behavior). -/
def max_by (f : TextHeightMetric → ℕ) : List TextHeightMetric → Option TextHeightMetric
  | [] => none
  | a :: as => some (as.foldl (fun best y => if f y > f best then y else best) a)

/-- A child of a `GraphicsContainer`, as far as its `visuals` setter observes
it: the classification its `infer_text_height()` returns (for a `TextBox`
this depends only on its text, which `visuals` does not change), and its
mutable `text_height_metric` field. -/
structure GCItem where
  infer : TextHeightMetric
  text_height_metric : Option TextHeightMetric
deriving Repr, DecidableEq

namespace GraphicsContainer

/-- The metric-assignment part of the `GraphicsContainer.visuals` setter
(`core/graphics.ts` lines 1111-1122): compute the common classification as
`max_by` of the children's `infer_text_height()` under `metric_map`, and
assign it to every child's `text_height_metric`. (The style cascade to the
children precedes this in the source and does not affect these fields.) -/
def assign_visuals (items : List GCItem) : List GCItem :=
  match max_by metric_map (items.map (·.infer)) with
  | none => items
  | some common => items.map (fun it => { it with text_height_metric := some common })

end GraphicsContainer

/-- A box emitted by `MathTextView.parse_math_parts`: either a plain
`TextBox` or an `ImageTextBox` carrying the raw math source. -/
inductive GBox where
  | textBox (text : List Char)
  | imageTextBox (text : List Char)
deriving Repr, DecidableEq

/-- One math span located by the provider's `find_tex`: character offsets
`start.n`/`end.n` into the text and the math source itself. -/
structure TexPart where
  start_n : ℕ
  end_n : ℕ
  math : List Char
deriving Repr, DecidableEq

namespace MathTextView

/-- Embeds `MathTextView.parse_math_parts` (`math_text.ts` lines 131-157).
`mathjax` is whether `provider.MathJax` is non-null (the source returns `[]`
otherwise); `find_tex` is the provider's tokenizer. `text.slice(a, b)` is
`(text.drop a).take (b - a)` and the truthiness test `if (_text)` is a
non-emptiness test. -/
def parse_math_parts (mathjax : Bool) (find_tex : List Char → List TexPart)
    (text : List Char) : List GBox :=
  if !mathjax then []
  else
    let step := fun (acc : List GBox × ℕ) (part : TexPart) =>
      let parts := acc.1
      let last_index := acc.2
      let t := (text.drop last_index).take (part.start_n - last_index)
      let parts := if t ≠ [] then parts ++ [GBox.textBox t] else parts
      let parts := parts ++ [GBox.imageTextBox part.math]
      (parts, part.end_n)
    let res := (find_tex text).foldl step ([], 0)
    if res.2 < text.length then res.1 ++ [GBox.textBox (text.drop res.2)]
    else res.1

end MathTextView

/-- First index at which `pat` occurs as a contiguous sublist of `s`
(JavaScript `String.indexOf`), `none` when it does not occur. -/
def list_index_of (pat : List Char) : List Char → Option ℕ
  | [] => if pat = [] then some 0 else none
  | s@(_ :: rest) =>
    if pat.isPrefixOf s then some 0
    else (list_index_of pat rest).map (· + 1)

/-- Backtracking of the greedy optional group `(.*?[^?])?` of the regex
`/<math(.*?[^?])?>/s` right after the literal `<math`, in JavaScript engine
order: the lazy `.*?` takes `k = 0, 1, 2, …` characters (any character,
`/s` flag), then `[^?]` takes one character that is not `?`, then a literal
`>` must follow. Returns the number of characters consumed (group + `>`)
for the first `k` that succeeds. -/
def open_group_len : List Char → Option ℕ
  | [] => none
  | c1 :: rest =>
    match rest.head? with
    | none => none
    | some c2 =>
      if c1 ≠ '?' ∧ c2 = '>' then some 2
      else (open_group_len rest).map (· + 1)

/-- Full match length of `/<math(.*?[^?])?>/s` at a position where `<math`
has just been consumed: the engine first tries the non-empty group (in the
backtracking order of `open_group_len`), and only if that fails everywhere
falls back to the empty group, which requires an immediate `>`. -/
def open_match_len (r : List Char) : Option ℕ :=
  match open_group_len r with
  | some n => some (5 + n)
  | none => if r.head? = some '>' then some 6 else none

/-- Leftmost match of `/<math(.*?[^?])?>/s`: the first index where the
pattern matches, together with the match length. -/
def find_open : List Char → Option (ℕ × ℕ)
  | [] => none
  | s@(_ :: rest) =>
    match (if "<math".toList.isPrefixOf s then open_match_len (s.drop 5) else none) with
    | some L => some (0, L)
    | none => (find_open rest).map (fun p => (p.1 + 1, p.2))

/-- Index of the first `>` in the list (the lazy `.*?>` tail of the closing
regex stops at the first `>`). -/
def idx_of_gt : List Char → Option ℕ
  | [] => none
  | c :: rest => if c = '>' then some 0 else (idx_of_gt rest).map (· + 1)

/-- Backtracking of `[^>]*?math.*?>` after the literal `</` of the regex
`/<\/[^>]*?math.*?>/s`: the lazy `[^>]*?` extends one non-`>` character at a
time; at each extent the engine tries the literal `math` followed by the
lazy `.*?` and a final `>`. Returns characters consumed after `</`. -/
def close_tail : List Char → Option ℕ
  | [] => none
  | s@(c :: rest) =>
    if "math".toList.isPrefixOf s then
      match idx_of_gt (s.drop 4) with
      | some m => some (4 + m + 1)
      | none => if c ≠ '>' then (close_tail rest).map (· + 1) else none
    else
      if c ≠ '>' then (close_tail rest).map (· + 1) else none

/-- Leftmost match of `/<\/[^>]*?math.*?>/s`: first index plus match length. -/
def find_close : List Char → Option (ℕ × ℕ)
  | [] => none
  | s@(_ :: rest) =>
    match (if "</".toList.isPrefixOf s then (close_tail (s.drop 2)).map (2 + ·) else none) with
    | some L => some (0, L)
    | none => (find_close rest).map (fun p => (p.1 + 1, p.2))

/-- JavaScript `String.prototype.trim`: strip whitespace from both ends. -/
def js_trim (s : List Char) : List Char :=
  ((s.dropWhile Char.isWhitespace).reverse.dropWhile Char.isWhitespace).reverse

/-- Modelled from the spec: `insert_text_on_position` from
`core/util/string` (that module is not in the sources under study) — splices
the given text into the string at the given character position, as the name
and the spec's "inject … immediately inside" describe. -/
def insert_text_on_position (s : List Char) (pos : ℕ) (ins : List Char) : List Char :=
  s.take pos ++ ins ++ s.drop pos

/-- The contiguous slice of `s` of length `L` starting at index `i`
(the regex match string `matchs[0]`). -/
def slice_at (s : List Char) (i L : ℕ) : List Char :=
  (s.drop i).take L

/-- The `<mstyle displaystyle="true" mathcolor="…">` opening tag built by
`MathMLView.styled_text`, with the box's color already rendered to hex by
the external `color2hexrgb`. -/
def mstyle_open (color_hex : List Char) : List Char :=
  "<mstyle displaystyle=\"true\" mathcolor=\"".toList ++ color_hex ++ "\">".toList

namespace MathMLView

/-- Embeds `MathMLView.styled_text` (`math_text.ts` lines 215-232). `color_hex`
stands for `color2hexrgb(image_box.color)` (external `core/util/color`).
The two regex searches are `find_open`/`find_close`; as in the source, the
insertion index is recovered with `indexOf` on the match string (`getD 0` is
safe: the match string always occurs). When either pattern is absent the
trimmed original text is returned. -/
def styled_text (color_hex : List Char) (text : List Char) : List Char :=
  let styled0 := js_trim text
  match find_open styled0 with
  | none => js_trim text
  | some (i, L) =>
    let m := slice_at styled0 i L
    let j := (list_index_of m styled0).getD 0
    let styled1 := insert_text_on_position styled0 (j + L) (mstyle_open color_hex)
    match find_close styled1 with
    | none => js_trim text
    | some (i2, L2) =>
      let m2 := slice_at styled1 i2 L2
      let j2 := (list_index_of m2 styled1).getD 0
      insert_text_on_position styled1 j2 "</mstyle>".toList

end MathMLView

/-- Status of the singleton MathJax provider (`models/text/providers`). -/
inductive ProviderStatus where
  | not_started
  | loading
  | ready
  | failed
deriving Repr, DecidableEq

/-- The provider as the pipeline observes it: its status, and whether its
`MathJax` handle is non-null (a provider that failed to load has none, per
the spec's ProviderUnavailable taxonomy). -/
structure Provider where
  status : ProviderStatus
  mathjax : Bool
deriving Repr, DecidableEq

/-- Observable state of one `MathTextView` pipeline instance:
`images i` is whether the `i`-th `ImageTextBox` of the container has a
non-null `image`; `has_finished`/`notify_count` track `_has_finished` and
the `notify_finished_after_paint` calls on the parent; `ready_subscriptions`
counts `provider.ready.connect` registrations; `conversions_in_flight`
counts conversions started (blob created, decode awaited) and not yet
resolved; `urls_created`/`urls_revoked` count `URL.createObjectURL` and
`URL.revokeObjectURL` calls; `layout_requests` counts
`parent.request_layout()` calls. -/
structure PipelineState where
  images : List Bool
  has_finished : Bool
  notify_count : ℕ
  ready_subscriptions : ℕ
  conversions_in_flight : ℕ
  urls_created : ℕ
  urls_revoked : ℕ
  layout_requests : ℕ
deriving Repr, DecidableEq

namespace MathTextView

/-- Embeds `MathTextView.has_images_loaded` (`math_text.ts` lines 85-87): every
image box of the container has a non-null image (`images` already is the
filtered list of image boxes). -/
def has_images_loaded (s : PipelineState) : Bool :=
  s.images.all (· = true)

/-- Whether `_process_text(image_box)` yields an element: all concrete
subclasses call through `this.provider.MathJax?.…2svg(…)`, so a null
`MathJax` short-circuits to `undefined`; otherwise the external conversion
oracle `conv` decides for the given box. -/
def process_text (prov : Provider) (conv : ℕ → Bool) (i : ℕ) : Bool :=
  prov.mathjax && conv i

/-- The synchronous prefix of `MathTextView.load_image` (`math_text.ts`
lines 89-129), which runs up to the `await load_image(url)` suspension
point: the provider-not-ready branch subscribes to readiness and clears
`_has_finished`; the failed/already-loaded branch marks finished and
notifies; a null conversion result marks finished and notifies; otherwise a
conversion is started (blob URL created, decode awaited). -/
def load_image (prov : Provider) (conv : ℕ → Bool) (s : PipelineState) (i : ℕ) :
    PipelineState :=
  if has_images_loaded s = false ∧
      (prov.status = .not_started ∨ prov.status = .loading) then
    { s with ready_subscriptions := s.ready_subscriptions + 1, has_finished := false }
  else if s.has_finished = false ∧
      (prov.status = .failed ∨ has_images_loaded s = true) then
    { s with has_finished := true, notify_count := s.notify_count + 1 }
  else if process_text prov conv i = false then
    { s with has_finished := true, notify_count := s.notify_count + 1 }
  else
    { s with conversions_in_flight := s.conversions_in_flight + 1,
             urls_created := s.urls_created + 1 }

/-- The continuation of `MathTextView.load_image` once the awaited
`load_image(url)` promise settles, with `ok` telling whether the decode
succeeded. The `finally` block revokes the blob URL on both paths; on
rejection the exception propagates and the rest of the body is skipped; on
success the image is stored on the box, a re-layout is requested, and if
every image box is now loaded the pipeline is marked finished and the
completion signal emitted. -/
def load_image_resume (s : PipelineState) (i : ℕ) (ok : Bool) : PipelineState :=
  let s1 := { s with urls_revoked := s.urls_revoked + 1,
                     conversions_in_flight := s.conversions_in_flight - 1 }
  if ok then
    let s2 := { s1 with images := s1.images.set i true,
                        layout_requests := s1.layout_requests + 1 }
    if has_images_loaded s2 then
      { s2 with has_finished := true, notify_count := s2.notify_count + 1 }
    else s2
  else s1

/-- Embeds `ImageTextBox.paint` (`core/graphics.ts` lines 884-903) restricted to
its effect on the modelled state: with a null image it invokes the injected
`load_image` callback (whose synchronous prefix runs immediately, since an
`async` function body runs to its first `await` before control returns) and
paints nothing; with an image present it draws and changes no modelled
state. -/
def paint (prov : Provider) (conv : ℕ → Bool) (s : PipelineState) (i : ℕ) :
    PipelineState :=
  match s.images.get? i with
  | some false => load_image prov conv s i
  | _ => s

/-- A sequence of `load_image` invocations (box indices, leftmost first). -/
def run_loads (prov : Provider) (conv : ℕ → Bool) :
    PipelineState → List ℕ → PipelineState
  | s, [] => s
  | s, i :: rest => run_loads prov conv (load_image prov conv s i) rest

/-- The resource-safety invariant of the blob-URL discipline: every created
URL is either already revoked or belongs to the one in-flight decode that
created it. -/
def url_invariant (s : PipelineState) : Prop :=
  s.urls_created = s.urls_revoked + s.conversions_in_flight

end MathTextView

/-! ## Helper lemmas -/

/-- The width component of the size-accumulating fold of
`GraphicsContainer._size` is the accumulated sum of widths. -/
theorem container_size_fold_width :
    ∀ (items : List Size) (acc : Size),
      (items.foldl
          (fun a s => { width := a.width + s.width, height := max a.height s.height })
          acc).width
        = acc.width + (items.map Size.width).sum
  | [], acc => by simp
  | s :: rest, acc => by
    rw [List.foldl_cons, container_size_fold_width rest _]
    simp [add_assoc]

/-- The height component of the size-accumulating fold of
`GraphicsContainer._size` is the scalar running maximum of heights. -/
theorem container_size_fold_height :
    ∀ (items : List Size) (acc : Size),
      (items.foldl
          (fun a s => { width := a.width + s.width, height := max a.height s.height })
          acc).height
        = items.foldl (fun h s => max h s.height) acc.height
  | [], _ => rfl
  | s :: rest, acc => by
    rw [List.foldl_cons, List.foldl_cons, container_size_fold_height rest _]

/-- The scalar height fold is an upper bound of its seed and of every
element's height. -/
theorem foldl_max_height_bounds (items : List Size) (h0 : ℚ) :
    h0 ≤ items.foldl (fun h s => max h s.height) h0 ∧
      ∀ s ∈ items, s.height ≤ items.foldl (fun h s => max h s.height) h0 := by
  induction items generalizing h0 with
  | nil => simp
  | cons a rest ih =>
    have hfold : (a :: rest).foldl (fun h s => max h s.height) h0
        = rest.foldl (fun h s => max h s.height) (max h0 a.height) := rfl
    obtain ⟨h1, h2⟩ := ih (max h0 a.height)
    refine ⟨?_, ?_⟩
    · rw [hfold]
      exact le_trans (le_max_left _ _) h1
    · intro s hs
      rw [hfold]
      rcases List.mem_cons.mp hs with h | h
      · rw [h]
        exact le_trans (le_max_right _ _) h1
      · exact h2 s h

/-- The scalar height fold returns its seed or one of the heights. -/
theorem foldl_max_height_mem (items : List Size) (h0 : ℚ) :
    items.foldl (fun h s => max h s.height) h0 = h0 ∨
      items.foldl (fun h s => max h s.height) h0 ∈ items.map Size.height := by
  induction items generalizing h0 with
  | nil => exact Or.inl rfl
  | cons a rest ih =>
    have hfold : (a :: rest).foldl (fun h s => max h s.height) h0
        = rest.foldl (fun h s => max h s.height) (max h0 a.height) := rfl
    rcases ih (max h0 a.height) with h | h
    · rcases max_choice h0 a.height with hm | hm
      · exact Or.inl (by rw [hfold, h, hm])
      · refine Or.inr ?_
        rw [hfold, h, hm]
        exact List.mem_map_of_mem Size.height (List.mem_cons_self a rest)
    · refine Or.inr ?_
      rw [hfold]
      rcases List.mem_map.mp h with ⟨s, hs, hval⟩
      exact List.mem_map.mpr ⟨s, List.mem_cons_of_mem a hs, hval⟩

/-- The selection fold of `max_by` returns an element of the seeded list and
maximizes the key over it. -/
theorem max_by_foldl_spec (f : TextHeightMetric → ℕ) (as : List TextHeightMetric) :
    ∀ a : TextHeightMetric,
      (as.foldl (fun best y => if f y > f best then y else best) a) ∈ a :: as ∧
      f a ≤ f (as.foldl (fun best y => if f y > f best then y else best) a) ∧
      ∀ y ∈ as, f y ≤ f (as.foldl (fun best y => if f y > f best then y else best) a) := by
  induction as with
  | nil =>
    intro a
    exact ⟨List.mem_cons_self a [], le_refl _, by intro y hy; exact absurd hy (List.not_mem_nil y)⟩
  | cons b bs ih =>
    intro a
    obtain ⟨hmem, hself, hall⟩ := ih (if f b > f a then b else a)
    have hfold : (b :: bs).foldl (fun best y => if f y > f best then y else best) a
        = bs.foldl (fun best y => if f y > f best then y else best)
            (if f b > f a then b else a) := rfl
    refine ⟨?_, ?_, ?_⟩
    · rw [hfold]
      rcases List.mem_cons.mp hmem with h | h
      · rw [h]
        by_cases hb : f b > f a
        · rw [if_pos hb]
          exact List.mem_cons_of_mem a (List.mem_cons_self b bs)
        · rw [if_neg hb]
          exact List.mem_cons_self a (b :: bs)
      · exact List.mem_cons_of_mem a (List.mem_cons_of_mem b h)
    · rw [hfold]
      refine le_trans ?_ hself
      by_cases hb : f b > f a
      · rw [if_pos hb]; exact le_of_lt hb
      · rw [if_neg hb]
    · intro y hy
      rw [hfold]
      rcases List.mem_cons.mp hy with h | h
      · subst h
        refine le_trans ?_ hself
        by_cases hb : f y > f a
        · rw [if_pos hb]
        · rw [if_neg hb]; exact le_of_not_lt hb
      · exact hall y h

/-- Specification of the (spec-modelled) `max_by` on a nonempty list. -/
theorem max_by_spec (f : TextHeightMetric → ℕ) (l : List TextHeightMetric)
    (m : TextHeightMetric) (h : max_by f l = some m) :
    m ∈ l ∧ ∀ y ∈ l, f y ≤ f m := by
  match l with
  | [] => simp [max_by] at h
  | a :: as =>
    obtain ⟨hmem, hself, hall⟩ := max_by_foldl_spec f as a
    have hm : m = as.foldl (fun best y => if f y > f best then y else best) a := by
      simpa [max_by] using h.symm
    subst hm
    refine ⟨hmem, ?_⟩
    intro y hy
    rcases List.mem_cons.mp hy with h | h
    · exact h ▸ hself
    · exact hall y h

/-- Characterization of `is_math_like`: the `Set`-deduplicated iteration
checks exactly that every character of the text is in the allowed class. -/
theorem is_math_like_iff (text : List Char) :
    TextBox.is_math_like text = true ↔ ∀ c ∈ text, TextBox.math_like_char c = true := by
  simp [TextBox.is_math_like, List.all_eq_true, List.mem_dedup]

/-- Characterization of the allowed character class of `is_math_like`. -/
theorem math_like_char_iff (c : Char) :
    TextBox.math_like_char c = true ↔
      ('0' ≤ c ∧ c ≤ '9') ∨ c ∈ [',', '.', '+', '-', '−', 'e'] := by
  simp [TextBox.math_like_char, List.mem_cons]
  tauto

/-- With a failed provider and a null MathJax handle, every `load_image`
invocation marks the pipeline finished and emits one completion signal,
touching nothing else. -/
theorem load_image_failed_step (prov : Provider) (conv : ℕ → Bool)
    (s : PipelineState) (i : ℕ)
    (hst : prov.status = .failed) (hmj : prov.mathjax = false) :
    MathTextView.load_image prov conv s i =
      { s with has_finished := true, notify_count := s.notify_count + 1 } := by
  simp [MathTextView.load_image, MathTextView.process_text, hst, hmj]

/-- Iterating `load_image` under a failed provider: the pipeline is finished
after the first call, no image is ever assigned, no conversion is ever
started, and the completion signal fires once per call. -/
theorem run_loads_failed (prov : Provider) (conv : ℕ → Bool)
    (hst : prov.status = .failed) (hmj : prov.mathjax = false) :
    ∀ (seq : List ℕ) (s : PipelineState),
      (MathTextView.run_loads prov conv s seq).has_finished =
        (if seq = [] then s.has_finished else true) ∧
      (MathTextView.run_loads prov conv s seq).images = s.images ∧
      (MathTextView.run_loads prov conv s seq).urls_created = s.urls_created ∧
      (MathTextView.run_loads prov conv s seq).notify_count =
        s.notify_count + seq.length := by
  intro seq
  induction seq with
  | nil =>
    intro s
    refine ⟨rfl, rfl, rfl, ?_⟩
    simp [MathTextView.run_loads]
  | cons i rest ih =>
    intro s
    obtain ⟨h1, h2, h3, h4⟩ :=
      ih ({ s with has_finished := true, notify_count := s.notify_count + 1 })
    have hrun : MathTextView.run_loads prov conv s (i :: rest)
        = MathTextView.run_loads prov conv (MathTextView.load_image prov conv s i) rest := rfl
    rw [hrun, load_image_failed_step prov conv s i hst hmj]
    refine ⟨?_, h2, h3, ?_⟩
    · rw [h1]
      by_cases h : rest = [] <;> simp [h]
    · rw [h4]
      simp only [List.length_cons]
      omega

/-! ## Claim theorems -/

/-- C1: the claim states that calling `paint()` twice on an `ImageTextBox`
whose image is null, before its asynchronous load resolves, does not start
two overlapping conversions for that box. The code has no in-flight guard:
neither `ImageTextBox.paint` (which calls the injected `load_image` on every
paint while the image is null) nor `MathTextView.load_image` checks for a
pending conversion, so with the provider ready and a conversion available
the second re-entrant paint starts a second overlapping conversion. This
theorem evaluates the embedded code at the failing input: one image box,
two paints before the decode resolves, two conversions (and two blob URLs)
in flight. -/
theorem c1_reentrant_paint_starts_second_conversion :
    (MathTextView.paint { status := .ready, mathjax := true } (fun _ => true)
        (MathTextView.paint { status := .ready, mathjax := true } (fun _ => true)
          { images := [false], has_finished := false, notify_count := 0,
            ready_subscriptions := 0, conversions_in_flight := 0,
            urls_created := 0, urls_revoked := 0, layout_requests := 0 } 0)
        0).conversions_in_flight = 2 ∧
    (MathTextView.paint { status := .ready, mathjax := true } (fun _ => true)
        (MathTextView.paint { status := .ready, mathjax := true } (fun _ => true)
          { images := [false], has_finished := false, notify_count := 0,
            ready_subscriptions := 0, conversions_in_flight := 0,
            urls_created := 0, urls_revoked := 0, layout_requests := 0 } 0)
        0).urls_created = 2 := by
  constructor <;> decide

/-- C2 counterexample: with the provider failed before any conversion
attempt and two `load_image` invocations on the single image box (e.g. two
paints), the completion signal fires twice, not exactly once: the second
call passes the already-finished guard (`_has_finished` is true), reaches
the null-conversion branch, and notifies again. -/
theorem c2_counterexample_notify_twice :
    (MathTextView.run_loads { status := .failed, mathjax := false } (fun _ => false)
        { images := [false], has_finished := false, notify_count := 0,
          ready_subscriptions := 0, conversions_in_flight := 0,
          urls_created := 0, urls_revoked := 0, layout_requests := 0 }
        [0, 0]).notify_count = 2 ∧
    (MathTextView.run_loads { status := .failed, mathjax := false } (fun _ => false)
        { images := [false], has_finished := false, notify_count := 0,
          ready_subscriptions := 0, conversions_in_flight := 0,
          urls_created := 0, urls_revoked := 0, layout_requests := 0 }
        [0, 0]).notify_count ≠ 1 := by
  constructor <;> decide

/-- C2 (amended): if the provider's status is "failed" (with a null
`MathJax` handle) before any conversion attempt, then for any nonempty
sequence of `load_image` invocations the pipeline reaches the finished
state without ever assigning an image to any box and without starting any
conversion, and the completion signal is emitted once per invocation —
hence exactly once precisely when `load_image` runs exactly once, and more
than once under re-entrant paints. -/
theorem c2_failed_provider_finishes_and_notifies_per_call
    (prov : Provider) (conv : ℕ → Bool) (s : PipelineState) (seq : List ℕ)
    (hst : prov.status = .failed) (hmj : prov.mathjax = false)
    (hne : seq ≠ []) :
    (MathTextView.run_loads prov conv s seq).has_finished = true ∧
    (MathTextView.run_loads prov conv s seq).images = s.images ∧
    (MathTextView.run_loads prov conv s seq).urls_created = s.urls_created ∧
    (MathTextView.run_loads prov conv s seq).notify_count
      = s.notify_count + seq.length := by
  obtain ⟨h1, h2, h3, h4⟩ := run_loads_failed prov conv hst hmj seq s
  refine ⟨?_, h2, h3, h4⟩
  rw [h1, if_neg hne]

/-- Witness for C2 at a concrete failed-provider pipeline with one image
box and a single invocation. -/
theorem c2_witness :
    (MathTextView.run_loads { status := .failed, mathjax := false } (fun _ => false)
        { images := [false], has_finished := false, notify_count := 0,
          ready_subscriptions := 0, conversions_in_flight := 0,
          urls_created := 0, urls_revoked := 0, layout_requests := 0 }
        [0]).has_finished = true ∧
    (MathTextView.run_loads { status := .failed, mathjax := false } (fun _ => false)
        { images := [false], has_finished := false, notify_count := 0,
          ready_subscriptions := 0, conversions_in_flight := 0,
          urls_created := 0, urls_revoked := 0, layout_requests := 0 }
        [0]).images = [false] ∧
    (MathTextView.run_loads { status := .failed, mathjax := false } (fun _ => false)
        { images := [false], has_finished := false, notify_count := 0,
          ready_subscriptions := 0, conversions_in_flight := 0,
          urls_created := 0, urls_revoked := 0, layout_requests := 0 }
        [0]).urls_created = 0 ∧
    (MathTextView.run_loads { status := .failed, mathjax := false } (fun _ => false)
        { images := [false], has_finished := false, notify_count := 0,
          ready_subscriptions := 0, conversions_in_flight := 0,
          urls_created := 0, urls_revoked := 0, layout_requests := 0 }
        [0]).notify_count = 0 + 1 :=
  c2_failed_provider_finishes_and_notifies_per_call _ _ _ _ rfl rfl (by decide)

/-- C3 counterexample: the empty input text contains no math spans, yet
`parse_math_parts` returns an empty container rather than a container with
exactly one `TextBox` holding the original (empty) text: the trailing
`last_index < text.length` test fails for `0 < 0`. -/
theorem c3_counterexample_empty_text :
    MathTextView.parse_math_parts true (fun _ => []) [] = ([] : List GBox) ∧
    MathTextView.parse_math_parts true (fun _ => []) [] ≠ [GBox.textBox []] := by
  constructor <;> decide

/-- C3 (amended): for every nonempty input text in which the (loaded)
provider finds zero math spans, `parse_math_parts` yields exactly one item,
a `TextBox` whose text equals the original input. The claim as stated fails
only for the empty input, which yields an empty container instead. -/
theorem c3_parse_no_math_yields_single_textbox
    (find_tex : List Char → List TexPart) (text : List Char)
    (hft : find_tex text = []) (hne : text ≠ []) :
    MathTextView.parse_math_parts true find_tex text = [GBox.textBox text] := by
  simp only [MathTextView.parse_math_parts, hft, Bool.not_true, Bool.false_eq_true,
    if_false, List.foldl_nil]
  rw [if_pos (List.length_pos.mpr hne), List.drop_zero, List.nil_append]

/-- Witness for C3 on the concrete math-free text `"E=mc"`. -/
theorem c3_witness :
    MathTextView.parse_math_parts true (fun _ => []) "E=mc".toList
      = [GBox.textBox "E=mc".toList] :=
  c3_parse_no_math_yields_single_textbox _ _ rfl (by decide)

/-- C4: for every `GraphicsContainer` with a nonempty child list (with
nonnegative child heights, as every `_size()` reports), `_size().width`
equals the sum of the children's widths, and `_size().height` equals the
maximum of the children's heights: it is one of the child heights and an
upper bound of all of them. -/
theorem c4_container_size_sum_and_max (items : List Size) (hne : items ≠ [])
    (hpos : ∀ s ∈ items, 0 ≤ s.height) :
    (GraphicsContainer.container_size items).width = (items.map Size.width).sum ∧
    (GraphicsContainer.container_size items).height ∈ items.map Size.height ∧
    ∀ s ∈ items, s.height ≤ (GraphicsContainer.container_size items).height := by
  have hw : (GraphicsContainer.container_size items).width
      = 0 + (items.map Size.width).sum :=
    container_size_fold_width items { width := 0, height := 0 }
  have hh : (GraphicsContainer.container_size items).height
      = items.foldl (fun h s => max h s.height) 0 :=
    container_size_fold_height items { width := 0, height := 0 }
  obtain ⟨_, hub⟩ := foldl_max_height_bounds items 0
  refine ⟨by rw [hw, zero_add], ?_, ?_⟩
  · rw [hh]
    rcases foldl_max_height_mem items 0 with h | h
    · obtain ⟨a, rest, rfl⟩ := List.exists_cons_of_ne_nil hne
      have hmem : a ∈ a :: rest := List.mem_cons_self a rest
      have ha : a.height ≤ 0 := le_of_le_of_eq (hub a hmem) h
      have ha0 : a.height = 0 := le_antisymm ha (hpos a hmem)
      rw [h, ← ha0]
      exact List.mem_map_of_mem Size.height hmem
    · exact h
  · intro s hs
    rw [hh]
    exact hub s hs

/-- Witness for C4 at the concrete child list `[{3, 4}, {5, 2}]`. -/
theorem c4_witness :
    (GraphicsContainer.container_size
        [{ width := 3, height := 4 }, { width := 5, height := 2 }]).width
      = (([{ width := 3, height := 4 }, { width := 5, height := 2 }] :
          List Size).map Size.width).sum ∧
    (GraphicsContainer.container_size
        [{ width := 3, height := 4 }, { width := 5, height := 2 }]).height
      ∈ ([{ width := 3, height := 4 }, { width := 5, height := 2 }] :
          List Size).map Size.height ∧
    ∀ s ∈ ([{ width := 3, height := 4 }, { width := 5, height := 2 }] : List Size),
      s.height ≤ (GraphicsContainer.container_size
        [{ width := 3, height := 4 }, { width := 5, height := 2 }]).height :=
  c4_container_size_sum_and_max _ (by decide)
    (by intro s hs; fin_cases hs <;> norm_num)

/-- C5: `BaseExpo` superscript layout. With
`shift = shift_scale × base.height`, where `shift_scale` equals
`x_height/cap_height` of the base's font when the base is a single-line
`TextBox` and `2/3` otherwise: `_size()` returns
`width = base.width + expo.width` and
`height = max(base.height, shift + expo.height)`, and setting `position`
immediately anchors the base bottom-left at
`sy = max(base.height, shift + expo.height)` and the exponent bottom-left
at `sx = base.width, sy = shift`. In particular base height 10, shift_scale
0.6 (x_height 6, cap_height 10) and exponent height 8 give composite
height 14. -/
theorem c5_base_expo_layout (bk : BaseExpo.BaseKind) (bs es : Size) :
    (∀ fm : FontMetrics,
      BaseExpo.shift_scale (.textBoxSingleLine fm) = fm.x_height / fm.cap_height) ∧
    BaseExpo.shift_scale .other = 2 / 3 ∧
    BaseExpo.size bk bs es =
      { width := bs.width + es.width,
        height := max bs.height (BaseExpo.shift_scale bk * bs.height + es.height) } ∧
    (BaseExpo.set_position bk bs es).1 =
      { sx := 0, sy := max bs.height (BaseExpo.shift_scale bk * bs.height + es.height),
        x_anchor := some .left, y_anchor := some .bottom } ∧
    (BaseExpo.set_position bk bs es).2 =
      { sx := bs.width, sy := BaseExpo.shift_scale bk * bs.height,
        x_anchor := some .left, y_anchor := some .bottom } ∧
    (BaseExpo.size
        (.textBoxSingleLine
          { ascent := 0, descent := 0, height := 0, x_height := 6, cap_height := 10 })
        { width := 20, height := 10 } { width := 7, height := 8 }).height = 14 := by
  refine ⟨fun fm => rfl, rfl, rfl, rfl, rfl, ?_⟩
  show max (10 : ℚ) (6 / 10 * 10 + 8) = 14
  norm_num

/-- C6: the claim (and the spec's scenario) say `styled_text` inserts the
`<mstyle displaystyle="true" mathcolor="#hex">` wrapper immediately after
the opening `<math ...>` tag. On `"<math><mi>x</mi></math>"` with color
`#ff0000` the regex `/<math(.*?[^?])?>/s` prefers its greedy optional
group, whose lazy body (`.` matches `>` too) extends past the tag's own `>`
up to the next `>`: the match is `"<math><mi>"`, so the wrapper lands after
`<mi>`, inside the `mi` element — not immediately after the `<math>` tag.
This theorem evaluates the embedded code at the spec's own scenario input
and shows the wrapper does not follow the `<math>` tag. -/
theorem c6_mstyle_not_immediately_after_math_tag :
    MathMLView.styled_text "#ff0000".toList "<math><mi>x</mi></math>".toList =
      "<math><mi><mstyle displaystyle=\"true\" mathcolor=\"#ff0000\">x</mi></mstyle></math>".toList ∧
    ¬ (("<math><mstyle".toList).isPrefixOf
        (MathMLView.styled_text "#ff0000".toList "<math><mi>x</mi></math>".toList)) := by
  constructor <;> decide

/-- C7: `infer_text_height` classification: multi-line text (containing a
newline) is classified `ascent_descent`; single-line text consisting solely
of digits and the characters `, . + - − e` is classified `cap`; every
other single-line text is classified `ascent_descent`. -/
theorem c7_infer_text_height_classification (text : List Char) :
    (text.contains '\n' = true →
      TextBox.infer_text_height text = .ascent_descent) ∧
    (text.contains '\n' = false →
      (∀ c ∈ text, ('0' ≤ c ∧ c ≤ '9') ∨ c ∈ [',', '.', '+', '-', '−', 'e']) →
      TextBox.infer_text_height text = .cap) ∧
    (text.contains '\n' = false →
      (∃ c ∈ text, ¬ (('0' ≤ c ∧ c ≤ '9') ∨ c ∈ [',', '.', '+', '-', '−', 'e'])) →
      TextBox.infer_text_height text = .ascent_descent) := by
  refine ⟨?_, ?_, ?_⟩
  · intro h
    unfold TextBox.infer_text_height
    rw [h]
    rfl
  · intro hnl hall
    have hm : TextBox.is_math_like text = true :=
      (is_math_like_iff text).mpr (fun c hc => (math_like_char_iff c).mpr (hall c hc))
    unfold TextBox.infer_text_height
    rw [hnl, hm]
    rfl
  · intro hnl hex
    obtain ⟨c, hc, hcn⟩ := hex
    have hm : TextBox.is_math_like text = false := by
      cases hb : TextBox.is_math_like text
      · rfl
      · exact absurd ((math_like_char_iff c).mp ((is_math_like_iff text).mp hb c hc)) hcn
    unfold TextBox.infer_text_height
    rw [hnl, hm]
    rfl

/-- Witness for C7 at the concrete numeric text `"3.14e-2"`. -/
theorem c7_witness : TextBox.infer_text_height "3.14e-2".toList = .cap :=
  (c7_infer_text_height_classification "3.14e-2".toList).2.1 (by decide) (by decide)

/-- C8: after the `visuals` assignment of a `GraphicsContainer` whose item
list is nonempty (encoded by `max_by` returning a value, which it does
exactly on nonempty lists), every child's `text_height_metric` equals the
single common classification selected by `max_by` — one of the children's
`infer_text_height()` results, of maximal `metric_map` rank under
`x < cap < ascent < x_descent < cap_descent < ascent_descent` — so all
children end up with the same metric. -/
theorem c8_visuals_assigns_common_max_metric (items : List GCItem)
    (common : TextHeightMetric)
    (hmb : max_by metric_map (items.map (·.infer)) = some common) :
    GraphicsContainer.assign_visuals items =
      items.map (fun it => { it with text_height_metric := some common }) ∧
    common ∈ items.map (·.infer) ∧
    (∀ it ∈ items, metric_map it.infer ≤ metric_map common) ∧
    (∀ it2 ∈ GraphicsContainer.assign_visuals items,
      it2.text_height_metric = some common) := by
  obtain ⟨hmem, hall⟩ := max_by_spec metric_map (items.map (·.infer)) common hmb
  have heq : GraphicsContainer.assign_visuals items =
      items.map (fun it => { it with text_height_metric := some common }) := by
    simp [GraphicsContainer.assign_visuals, hmb]
  refine ⟨heq, hmem, ?_, ?_⟩
  · intro it hit
    exact hall it.infer (List.mem_map_of_mem (·.infer) hit)
  · intro it2 hit2
    rw [heq] at hit2
    obtain ⟨it, _, rfl⟩ := List.mem_map.mp hit2
    rfl

/-- Witness for C8 at the concrete mixed item list `[cap, x]`, whose
maximum-rank classification is `cap`. -/
theorem c8_witness :
    GraphicsContainer.assign_visuals
        [{ infer := .cap, text_height_metric := none },
         { infer := .x, text_height_metric := none }] =
      [{ infer := .cap, text_height_metric := some .cap },
       { infer := .x, text_height_metric := some .cap }] ∧
    TextHeightMetric.cap ∈
      ([{ infer := .cap, text_height_metric := none },
        { infer := .x, text_height_metric := none }] : List GCItem).map (·.infer) := by
  have h := c8_visuals_assigns_common_max_metric
    [{ infer := .cap, text_height_metric := none },
     { infer := .x, text_height_metric := none }] .cap (by decide)
  exact ⟨by simpa using h.1, h.2.1⟩

/-- C9: in the SVG-to-image decode step of `load_image`, the transient blob
URL is released on every exit path: the resume step (the `try`/`finally`
around `await load_image(url)`) revokes exactly one URL whether the decode
succeeds or the promise rejects, creates none, and both the synchronous
prefix of `load_image` and the resume step preserve the balance
`urls_created = urls_revoked + conversions in flight` — i.e. a URL stays
unreleased only while its own decode is still pending, and is revoked
immediately after the decode attempt. -/
theorem c9_blob_url_revoked_on_every_exit (s : PipelineState) (i : ℕ) (ok : Bool)
    (prov : Provider) (conv : ℕ → Bool)
    (hin : 1 ≤ s.conversions_in_flight) (hinv : MathTextView.url_invariant s) :
    (MathTextView.load_image_resume s i ok).urls_revoked = s.urls_revoked + 1 ∧
    (MathTextView.load_image_resume s i ok).urls_created = s.urls_created ∧
    MathTextView.url_invariant (MathTextView.load_image_resume s i ok) ∧
    MathTextView.url_invariant (MathTextView.load_image prov conv s i) := by
  unfold MathTextView.url_invariant at hinv ⊢
  unfold MathTextView.load_image_resume MathTextView.load_image
  dsimp only
  cases ok <;> split_ifs <;> dsimp only <;> omega

/-- Witness for C9 at a concrete state with one conversion in flight and a
rejecting decode. -/
theorem c9_witness :
    (MathTextView.load_image_resume
        { images := [false], has_finished := false, notify_count := 0,
          ready_subscriptions := 0, conversions_in_flight := 1,
          urls_created := 1, urls_revoked := 0, layout_requests := 0 }
        0 false).urls_revoked = 0 + 1 ∧
    (MathTextView.load_image_resume
        { images := [false], has_finished := false, notify_count := 0,
          ready_subscriptions := 0, conversions_in_flight := 1,
          urls_created := 1, urls_revoked := 0, layout_requests := 0 }
        0 false).urls_created = 1 ∧
    MathTextView.url_invariant (MathTextView.load_image_resume
        { images := [false], has_finished := false, notify_count := 0,
          ready_subscriptions := 0, conversions_in_flight := 1,
          urls_created := 1, urls_revoked := 0, layout_requests := 0 }
        0 false) ∧
    MathTextView.url_invariant (MathTextView.load_image
        { status := .ready, mathjax := true } (fun _ => true)
        { images := [false], has_finished := false, notify_count := 0,
          ready_subscriptions := 0, conversions_in_flight := 1,
          urls_created := 1, urls_revoked := 0, layout_requests := 0 }
        0) :=
  c9_blob_url_revoked_on_every_exit _ 0 false _ _ (by decide) rfl

/-- C10: a `TextBox` whose text is the empty string is classified `cap` by
`infer_text_height()` — the digits-and-punctuation check is vacuously true
over the empty character set — even though `_size()` reports height 0 for
empty text, for every measurement service, font metrics, line height,
percentage scales and metric override. -/
theorem c10_empty_text_cap_but_zero_height (tw : List Char → ℚ)
    (fm : FontMetrics) (line_height w_scale h_scale : ℚ)
    (mo : Option TextHeightMetric) :
    TextBox.infer_text_height [] = .cap ∧
    (TextBox.size tw fm line_height w_scale h_scale mo []).height = 0 := by
  exact ⟨rfl, by simp [TextBox.size]⟩
